import Mathlib

/-!
Verification of the libdns/inwx DNS provider.

The development shallowly embeds the Go sources:
* `provider.go` — the four public operations (`GetRecords`, `AppendRecords`,
  `SetRecords`, `DeleteRecords`), session acquisition/teardown, and the
  record codec (`inwxRecord` / `libdnsRecord`);
* the JSON-RPC client — `checkResponse`, `ensureMinTTL`, the request
  builders, `login`/`unlock`/`logout`, and the per-method client calls.

Go strings are modelled as `List Char`, Go `int` as `Int`, Go `uint` as
`Nat`, and fallible code as `Except`/`Option`.  The remote INWX API is an
opaque oracle (`Remote`): each RPC method is a function from the request
payload to its response, and every client call is recorded in a trace of
`RpcCall` values so that theorems can speak about which requests were
actually issued.  Behaviour of the external `libdns` library (record
parsing/serialisation) is modelled from the specification, as noted on
each such definition.
-/

namespace Inwx

/-- A Go string, modelled as its list of characters. -/
abbrev Str := List Char

/-- `nameserverRecord` from the client: the INWX native record shape. -/
structure NameserverRecord where
  id : Str
  name : Str
  typ : Str
  content : Str
  ttl : Int
  prio : Nat
  deriving DecidableEq, Repr

/-- The JSON-RPC response envelope (`resData` is opaque and not needed
by `checkResponse`). -/
structure Response where
  code : Int
  message : Str
  reasonCode : Str
  reason : Str
  deriving DecidableEq, Repr

/-- `errorResponse`: the error value built from a non-success response. -/
structure ErrorResponse where
  code : Int
  message : Str
  reasonCode : Str
  reason : Str
  deriving DecidableEq, Repr

/-- `checkResponse` from the client: a response is successful iff its
status code lies in the inclusive band 1000..1500; otherwise an
`errorResponse` carrying the four fields verbatim is produced
(`none` models a `nil` Go error). -/
def checkResponse (r : Response) : Option ErrorResponse :=
  if 1000 ≤ r.code ∧ r.code ≤ 1500 then none
  else some { code := r.code, message := r.message,
              reasonCode := r.reasonCode, reason := r.reason }

/-- `ensureMinTTL` from the client: TTLs below 300 seconds are raised to
the INWX floor of 300. -/
def ensureMinTTL (ttl : Int) : Int :=
  if ttl < 300 then 300 else ttl

/-- `nameserverInfoRequest` as populated by the provider: only the
domain, name, type and content fields are ever set (Go zero values,
i.e. empty strings, elsewhere). -/
structure InfoReq where
  domain : Str
  name : Str
  typ : Str
  content : Str
  deriving DecidableEq, Repr

/-- `nameserverCreateRecordRequest`. -/
structure CreateReq where
  domain : Str
  name : Str
  typ : Str
  content : Str
  ttl : Int
  prio : Nat
  deriving DecidableEq, Repr

/-- `nameserverUpdateRecordRequest`. -/
structure UpdateReq where
  id : Str
  name : Str
  typ : Str
  content : Str
  ttl : Int
  prio : Nat
  deriving DecidableEq, Repr

/-- `nameserverDeleteRecordRequest`. -/
structure DeleteReq where
  id : Str
  deriving DecidableEq, Repr

/-- `accountLoginResponse` (the `tfa` challenge indicator). -/
structure LoginData where
  tfa : Str
  deriving DecidableEq, Repr

/-- The request of `findRecords`: domain, type and name are always
filled in; content only when `matchContent` is set. -/
def findReq (record : NameserverRecord) (domain : Str) (matchContent : Bool) : InfoReq :=
  { domain := domain, name := record.name, typ := record.typ,
    content := if matchContent then record.content else [] }

/-- The request of `getRecords`: only the domain filter. -/
def infoDomainReq (domain : Str) : InfoReq :=
  { domain := domain, name := [], typ := [], content := [] }

/-- The request built by `createRecord`: the record's fields with
`ensureMinTTL` applied to the TTL. -/
def createReq (r : NameserverRecord) (domain : Str) : CreateReq :=
  { domain := domain, name := r.name, typ := r.typ, content := r.content,
    ttl := ensureMinTTL r.ttl, prio := r.prio }

/-- The request built by `updateRecord`: the record's fields (id
included) with `ensureMinTTL` applied to the TTL. -/
def updateReq (r : NameserverRecord) : UpdateReq :=
  { id := r.id, name := r.name, typ := r.typ, content := r.content,
    ttl := ensureMinTTL r.ttl, prio := r.prio }

/-- The host-facing record shape (`libdns.Record`): a closed variant of
the record kinds exercised by this provider.  Modelled from the spec:
the generic record representation is external (`libdns`); the spec
describes it as a typed variant over TXT, MX, SRV and a generic RR
carrying a canonical (type, name, data, ttl) quadruple.  TTLs are Go
`time.Duration` values, i.e. integer nanoseconds. -/
inductive GenericRecord where
  | txt (name : Str) (ttl : Int) (text : Str)
  | mx (name : Str) (ttl : Int) (preference : Nat) (target : Str)
  | srv (service : Str) (transport : Str) (name : Str) (ttl : Int)
        (priority : Nat) (weight : Nat) (port : Nat) (target : Str)
  | rr (name : Str) (typ : Str) (data : Str) (ttl : Int)
  deriving DecidableEq, Repr

/-- The character of a decimal digit. -/
def digitChar (d : Nat) : Char := Char.ofNat (48 + d)

/-- Decimal printing, most significant digit first, with enough fuel. -/
def natReprAux (fuel : Nat) (n : Nat) : Str :=
  match fuel with
  | 0 => []
  | fuel + 1 =>
    if n < 10 then [digitChar n]
    else natReprAux fuel (n / 10) ++ [digitChar (n % 10)]

/-- Decimal printing of a natural number (the `%d` verb). -/
def natRepr (n : Nat) : Str := natReprAux (n + 1) n

/-- The numeric value of a decimal digit character. -/
def charVal (c : Char) : Nat := c.toNat - 48

/-- Decimal parsing of a natural number (`strconv.ParseUint`-style:
nonempty, all digits). -/
def parseNatQ (s : Str) : Option Nat :=
  if s = [] then none
  else if s.all Char.isDigit then
    some (s.foldl (fun a c => 10 * a + charVal c) 0)
  else none

/-- Split a string at the first occurrence of a separator character
(the `strings.SplitN(s, sep, 2)` shape); `none` when absent. -/
def splitFirst (c : Char) : Str → Option (Str × Str)
  | [] => none
  | a :: s =>
    if a = c then some ([], s)
    else
      match splitFirst c s with
      | none => none
      | some (l, r) => some (a :: l, r)

/-- Drop a single leading occurrence of a character
(`strings.TrimPrefix` with a one-character prefix). -/
def trimLeadChar (c : Char) : Str → Str
  | [] => []
  | a :: s => if a = c then s else a :: s

/-- Modelled from the spec: the MX data grammar used by the generic
record parser, a single ``"<preference> <target>"`` string. -/
def parseMXData (data : Str) : Option (Nat × Str) :=
  match splitFirst ' ' data with
  | none => none
  | some (f, rest) =>
    match parseNatQ f with
    | none => none
    | some n => some (n, rest)

/-- Modelled from the spec: the SRV data grammar used by the generic
record parser, ``"<priority> <weight> <port> <target>"``. -/
def parseSRVData (data : Str) : Option (Nat × Nat × Nat × Str) :=
  match splitFirst ' ' data with
  | none => none
  | some (f1, r1) =>
    match splitFirst ' ' r1 with
    | none => none
    | some (f2, r2) =>
      match splitFirst ' ' r2 with
      | none => none
      | some (f3, target) =>
        match parseNatQ f1, parseNatQ f2, parseNatQ f3 with
        | some a, some b, some c => some (a, b, c, target)
        | _, _, _ => none

/-- The SRV owner-name encoding ``_service._transport.name``. -/
def srvName (service transport name : Str) : Str :=
  ('_' :: service) ++ ('.' :: (('_' :: transport) ++ ('.' :: name)))

/-- Modelled from the spec: decomposing an SRV owner name into service,
transport and base name (split at the first two dots, dropping one
leading underscore of each of the first two labels). -/
def parseSRVName (name : Str) : Option (Str × Str × Str) :=
  match splitFirst '.' name with
  | none => none
  | some (p1, r1) =>
    match splitFirst '.' r1 with
    | none => none
    | some (p2, rest) => some (trimLeadChar '_' p1, trimLeadChar '_' p2, rest)

/-- Modelled from the spec: the canonical (name, type, data, ttl)
projection `Record.RR()` of a generic record.  MX data is
``"<preference> <target>"``; SRV data is
``"<priority> <weight> <port> <target>"`` with the owner name in
``_service._transport.name`` form. -/
def GenericRecord.rrName : GenericRecord → Str
  | .txt n _ _ => n
  | .mx n _ _ _ => n
  | .srv s t n _ _ _ _ _ => srvName s t n
  | .rr n _ _ _ => n

/-- The type tag of the canonical projection. -/
def GenericRecord.rrType : GenericRecord → Str
  | .txt _ _ _ => ['T', 'X', 'T']
  | .mx _ _ _ _ => ['M', 'X']
  | .srv _ _ _ _ _ _ _ _ => ['S', 'R', 'V']
  | .rr _ t _ _ => t

/-- The TTL (nanoseconds) of the canonical projection. -/
def GenericRecord.rrTtl : GenericRecord → Int
  | .txt _ ttl _ => ttl
  | .mx _ ttl _ _ => ttl
  | .srv _ _ _ ttl _ _ _ _ => ttl
  | .rr _ _ _ ttl => ttl

/-- The data string of the canonical projection. -/
def GenericRecord.rrData : GenericRecord → Str
  | .txt _ _ text => text
  | .mx _ _ p target => natRepr p ++ ' ' :: target
  | .srv _ _ _ _ p w port target =>
      natRepr p ++ ' ' :: (natRepr w ++ ' ' :: (natRepr port ++ ' ' :: target))
  | .rr _ _ d _ => d

/-- Whole seconds of a `time.Duration`, as computed by
`int(d.Seconds())`.  Truncating division models the float64 conversion
exactly for durations that are whole numbers of seconds of magnitude
below `2 ^ 53`. -/
def ttlSeconds (d : Int) : Int := d.tdiv 1000000000

/-- `getDomain` from the provider: `strings.TrimSuffix(zone, ".")`. -/
def getDomain (zone : Str) : Str :=
  if ['.'] <:+ zone then zone.dropLast else zone

/-- Modelled from the spec: `libdns.RelativeName` strips the
fully-qualified zone suffix from a zone-absolute name, leaving already
relative names unchanged. -/
def relativeName (name dom : Str) : Str :=
  if ('.' :: dom) <:+ name then name.take (name.length - (dom.length + 1))
  else name

/-- `inwxRecord` from the provider: the codec direction
generic → native.  Simple kinds copy the canonical projection; MX
overwrites content with the target and priority with the preference;
SRV overwrites content with ``"<weight> <port> <target>"`` and priority
with the SRV priority. -/
def inwxRecord (record : GenericRecord) : NameserverRecord :=
  let base : NameserverRecord :=
    { id := [], name := record.rrName, typ := record.rrType,
      content := record.rrData, ttl := ttlSeconds record.rrTtl, prio := 0 }
  match record with
  | .mx _ _ pre target => { base with content := target, prio := pre }
  | .srv _ _ _ _ p w port target =>
      { base with content := natRepr w ++ ' ' :: (natRepr port ++ ' ' :: target),
                  prio := p }
  | _ => base

/-- The raw RR quadruple handed to the generic record parser. -/
structure RRData where
  name : Str
  typ : Str
  data : Str
  ttl : Int
  deriving DecidableEq, Repr

/-- Modelled from the spec: `libdns.RR.Parse`, decomposing the data by
the type-specific grammar; fails when the content does not match the
grammar of the declared type.  Types without a special grammar stay
generic RRs. -/
def rrParse (rrd : RRData) : Except Str GenericRecord :=
  if rrd.typ = ['T', 'X', 'T'] then .ok (.txt rrd.name rrd.ttl rrd.data)
  else if rrd.typ = ['M', 'X'] then
    match parseMXData rrd.data with
    | none => .error rrd.data
    | some (pre, target) => .ok (.mx rrd.name rrd.ttl pre target)
  else if rrd.typ = ['S', 'R', 'V'] then
    match parseSRVData rrd.data, parseSRVName rrd.name with
    | some (p, w, port, target), some (svc, tp, nm) =>
        .ok (.srv svc tp nm rrd.ttl p w port target)
    | _, _ => .error rrd.data
  else .ok (.rr rrd.name rrd.typ rrd.data rrd.ttl)

/-- `libdnsRecord` from the provider: the codec direction
native → generic.  The name is made zone-relative, the TTL becomes a
duration, and for MX/SRV the numeric priority is re-prepended to the
content before parsing. -/
def libdnsRecord (record : NameserverRecord) (zone : Str) : Except Str GenericRecord :=
  let name := relativeName record.name (getDomain zone)
  let ttl : Int := record.ttl * 1000000000
  let data :=
    if record.typ = ['M', 'X'] ∨ record.typ = ['S', 'R', 'V'] then
      natRepr record.prio ++ ' ' :: record.content
    else record.content
  rrParse { name := name, typ := record.typ, data := data, ttl := ttl }

/-- A TTL that is a whole, float64-exact number of seconds. -/
def ValidTTL (ttl : Int) : Prop :=
  ∃ s : Nat, ttl = (s : Int) * 1000000000 ∧ s ≤ 2 ^ 53

/-- Validity of a generic record relative to a zone: whole-second TTL,
name already zone-relative, SRV labels dot-free, and a generic RR does
not masquerade as one of the specially parsed types. -/
def ValidRecord (record : GenericRecord) (zone : Str) : Prop :=
  ValidTTL record.rrTtl ∧
  ¬ ('.' :: getDomain zone) <:+ record.rrName ∧
  match record with
  | .srv svc tp _ _ _ _ _ _ => '.' ∉ svc ∧ '.' ∉ tp
  | .rr _ typ _ _ =>
      typ ≠ ['T', 'X', 'T'] ∧ typ ≠ ['M', 'X'] ∧ typ ≠ ['S', 'R', 'V']
  | _ => True

theorem charVal_digitChar {d : Nat} (h : d < 10) : charVal (digitChar d) = d := by
  interval_cases d <;> decide

theorem isDigit_digitChar {d : Nat} (h : d < 10) : (digitChar d).isDigit = true := by
  interval_cases d <;> decide

theorem natReprAux_spec : ∀ fuel n, n < 10 ^ (fuel + 1) →
    natReprAux (fuel + 1) n ≠ [] ∧
    (∀ c ∈ natReprAux (fuel + 1) n, c.isDigit = true) ∧
    ∃ k, ∀ a,
      (natReprAux (fuel + 1) n).foldl (fun x c => 10 * x + charVal c) a = a * 10 ^ k + n := by
  intro fuel
  induction fuel with
  | zero =>
    intro n hn
    have hn' : n < 10 := by simpa using hn
    refine ⟨by simp [natReprAux, hn'], ?_, 1, ?_⟩
    · intro c hc
      simp [natReprAux, hn'] at hc
      subst hc
      exact isDigit_digitChar hn'
    · intro a
      simp [natReprAux, hn', charVal_digitChar hn']
      ring
  | succ fuel ih =>
    intro n hn
    by_cases hlt : n < 10
    · refine ⟨by simp [natReprAux, hlt], ?_, 1, ?_⟩
      · intro c hc
        simp [natReprAux, hlt] at hc
        subst hc
        exact isDigit_digitChar hlt
      · intro a
        simp [natReprAux, hlt, charVal_digitChar hlt]
        ring
    · have hdiv : n / 10 < 10 ^ (fuel + 1) := by
        rw [Nat.div_lt_iff_lt_mul (by norm_num)]
        calc n < 10 ^ (fuel + 1 + 1) := hn
          _ = 10 ^ (fuel + 1) * 10 := by rw [pow_succ]
      obtain ⟨hne, hdig, k, hfold⟩ := ih (n / 10) hdiv
      have hrw : natReprAux (fuel + 1 + 1) n
          = natReprAux (fuel + 1) (n / 10) ++ [digitChar (n % 10)] := by
        simp [natReprAux, hlt]
      have hmlt : n % 10 < 10 := Nat.mod_lt _ (by norm_num)
      refine ⟨by simp [hrw], ?_, k + 1, ?_⟩
      · intro c hc
        rw [hrw] at hc
        rcases List.mem_append.mp hc with hc | hc
        · exact hdig c hc
        · simp at hc
          subst hc
          exact isDigit_digitChar hmlt
      · intro a
        rw [hrw, List.foldl_append, hfold a]
        have hmod : 10 * (n / 10) + n % 10 = n := Nat.div_add_mod n 10
        calc 10 * (a * 10 ^ k + n / 10) + charVal (digitChar (n % 10))
            = a * (10 ^ k * 10) + (10 * (n / 10) + n % 10) := by
              rw [charVal_digitChar hmlt]; ring
          _ = a * 10 ^ (k + 1) + n := by rw [hmod, pow_succ]

theorem parseNatQ_natRepr (n : Nat) : parseNatQ (natRepr n) = some n := by
  have hn : n < 10 ^ (n + 1) :=
    lt_of_lt_of_le (Nat.lt_pow_self (by norm_num) n)
      (Nat.pow_le_pow_right (by norm_num) (Nat.le_succ n))
  obtain ⟨hne, hdig, k, hfold⟩ := natReprAux_spec n n hn
  unfold parseNatQ natRepr
  rw [if_neg hne, if_pos (List.all_eq_true.mpr hdig), hfold 0]
  simp

theorem space_notin_natRepr (n : Nat) : ' ' ∉ natRepr n := by
  intro hmem
  have hn : n < 10 ^ (n + 1) :=
    lt_of_lt_of_le (Nat.lt_pow_self (by norm_num) n)
      (Nat.pow_le_pow_right (by norm_num) (Nat.le_succ n))
  obtain ⟨_, hdig, _⟩ := natReprAux_spec n n hn
  exact absurd (hdig _ hmem) (by decide)

theorem splitFirst_append (c : Char) (l r : Str) (h : c ∉ l) :
    splitFirst c (l ++ c :: r) = some (l, r) := by
  induction l with
  | nil => simp [splitFirst]
  | cons a t ih =>
    have ha : ¬ a = c := by
      rintro rfl
      exact h (List.mem_cons_self a t)
    have ht : c ∉ t := fun hm => h (List.mem_cons_of_mem _ hm)
    simp [splitFirst, ha, ih ht]

theorem parseMXData_repr (p : Nat) (t : Str) :
    parseMXData (natRepr p ++ ' ' :: t) = some (p, t) := by
  simp [parseMXData, splitFirst_append _ _ _ (space_notin_natRepr p), parseNatQ_natRepr]

theorem parseSRVData_repr (a b c : Nat) (t : Str) :
    parseSRVData (natRepr a ++ ' ' :: (natRepr b ++ ' ' :: (natRepr c ++ ' ' :: t)))
      = some (a, b, c, t) := by
  simp [parseSRVData, splitFirst_append _ _ _ (space_notin_natRepr a),
    splitFirst_append _ _ _ (space_notin_natRepr b),
    splitFirst_append _ _ _ (space_notin_natRepr c), parseNatQ_natRepr]

theorem parseSRVName_srvName (svc tp nm : Str) (h1 : '.' ∉ svc) (h2 : '.' ∉ tp) :
    parseSRVName (srvName svc tp nm) = some (svc, tp, nm) := by
  have hs1 : '.' ∉ '_' :: svc := by simp [h1]
  have hs2 : '.' ∉ '_' :: tp := by simp [h2]
  unfold parseSRVName srvName
  simp only [splitFirst_append '.' ('_' :: svc) (('_' :: tp) ++ '.' :: nm) hs1]
  simp only [splitFirst_append '.' ('_' :: tp) nm hs2]
  simp [trimLeadChar]

theorem relativeName_of_relative {name dom : Str} (h : ¬ ('.' :: dom) <:+ name) :
    relativeName name dom = name := by
  simp [relativeName, h]

theorem ttlSeconds_whole (s : Nat) : ttlSeconds ((s : Int) * 1000000000) = s :=
  Int.mul_tdiv_cancel _ (by norm_num)

/-- C3: for every supported record kind (including MX and SRV with
their priority/weight/port/target encodings) and every valid record
`r`, decoding the native encoding of `r` over the same zone yields `r`
back: `libdnsRecord (inwxRecord r) zone = .ok r`.  The TTL floor is
applied only on the write path (`ensureMinTTL`), not in the codec, so
the equality here is exact. -/
theorem claim_C3_codec_roundtrip (r : GenericRecord) (zone : Str)
    (h : ValidRecord r zone) :
    libdnsRecord (inwxRecord r) zone = .ok r := by
  obtain ⟨⟨s, hs, -⟩, hname, hkind⟩ := h
  cases r with
  | txt n ttl text =>
    simp only [GenericRecord.rrTtl] at hs
    simp only [GenericRecord.rrName] at hname
    subst hs
    simp [libdnsRecord, inwxRecord, rrParse, GenericRecord.rrName,
      GenericRecord.rrType, GenericRecord.rrData, GenericRecord.rrTtl,
      ttlSeconds_whole, relativeName_of_relative hname]
  | mx n ttl pre target =>
    simp only [GenericRecord.rrTtl] at hs
    simp only [GenericRecord.rrName] at hname
    subst hs
    simp [libdnsRecord, inwxRecord, rrParse, GenericRecord.rrName,
      GenericRecord.rrType, GenericRecord.rrData, GenericRecord.rrTtl,
      ttlSeconds_whole, relativeName_of_relative hname, parseMXData_repr]
  | srv svc tp nm ttl p w port target =>
    obtain ⟨hsvc, htp⟩ := hkind
    simp only [GenericRecord.rrTtl] at hs
    simp only [GenericRecord.rrName] at hname
    subst hs
    simp [libdnsRecord, inwxRecord, rrParse, GenericRecord.rrName,
      GenericRecord.rrType, GenericRecord.rrData, GenericRecord.rrTtl,
      ttlSeconds_whole, relativeName_of_relative hname, parseSRVData_repr,
      parseSRVName_srvName svc tp nm hsvc htp]
  | rr n typ data ttl =>
    obtain ⟨h1, h2, h3⟩ := hkind
    simp only [GenericRecord.rrTtl] at hs
    simp only [GenericRecord.rrName] at hname
    subst hs
    simp [libdnsRecord, inwxRecord, rrParse, GenericRecord.rrName,
      GenericRecord.rrType, GenericRecord.rrData, GenericRecord.rrTtl,
      ttlSeconds_whole, relativeName_of_relative hname, h1, h2, h3]

/-- Witness for C3: the SRV test record of the repository's test suite,
with a 300-second TTL, round-trips through the codec over
`example.com.`. -/
theorem claim_C3_witness :
    libdnsRecord
      (inwxRecord (GenericRecord.srv ['s', 'i', 'p'] ['t', 'c', 'p'] ['t', 'e', 's', 't']
        300000000000 0 5 5060 ['t', 'g', 't', '.', 'e', 'x']))
      ['e', 'x', '.']
      = .ok (GenericRecord.srv ['s', 'i', 'p'] ['t', 'c', 'p'] ['t', 'e', 's', 't']
        300000000000 0 5 5060 ['t', 'g', 't', '.', 'e', 'x']) :=
  claim_C3_codec_roundtrip _ _
    ⟨⟨300, by norm_num [GenericRecord.rrTtl], by norm_num⟩, by decide, by decide⟩

/-- One remote RPC invocation, as recorded in call traces. -/
inductive RpcCall where
  | info (req : InfoReq)
  | createRecord (req : CreateReq)
  | updateRecord (req : UpdateReq)
  | deleteRecord (req : DeleteReq)
  | accountLogin (user : Str) (pass : Str)
  | accountUnlock (tan : Str)
  | accountLogout
  deriving DecidableEq, Repr

/-- The error taxonomy of the provider: remote RPC errors are
propagated verbatim; the remaining constructors model the `fmt.Errorf`
values produced locally (each carrying what the message names). -/
inductive PErr where
  | remote (e : ErrorResponse)
  | otpFailed (msg : Str)
  | ambiguous (record : GenericRecord)
  | recordParse (record : NameserverRecord) (msg : Str)
  | updateMissingId
  deriving DecidableEq, Repr

/-- The remote INWX API, as an opaque oracle: each RPC method maps its
request payload to the response the server would give.  `otpR` models
the external `totp.GenerateCode(sharedSecret, now)` function (opaque
per the spec), which can fail on a malformed shared secret. -/
structure Remote where
  infoR : InfoReq → Except ErrorResponse (List NameserverRecord)
  createR : CreateReq → Except ErrorResponse Str
  updateR : UpdateReq → Except ErrorResponse Unit
  deleteR : DeleteReq → Except ErrorResponse Unit
  loginR : Str → Str → Except ErrorResponse LoginData
  unlockR : Str → Except ErrorResponse Unit
  logoutR : Except ErrorResponse Unit
  otpR : Str → Except Str Str

/-- `client.getRecords`: one `nameserver.info` call filtered by domain. -/
def getRecordsC (remote : Remote) (domain : Str) :
    List RpcCall × Except PErr (List NameserverRecord) :=
  ([.info (infoDomainReq domain)],
   (remote.infoR (infoDomainReq domain)).mapError .remote)

/-- `client.findRecords`: one `nameserver.info` call filtered by domain,
type, name, and (when `matchContent`) content. -/
def findRecordsC (remote : Remote) (record : NameserverRecord) (domain : Str)
    (matchContent : Bool) : List RpcCall × Except PErr (List NameserverRecord) :=
  ([.info (findReq record domain matchContent)],
   (remote.infoR (findReq record domain matchContent)).mapError .remote)

/-- `client.createRecord`: one `nameserver.createRecord` call carrying
the record's fields with `ensureMinTTL` applied. -/
def createRecordC (remote : Remote) (record : NameserverRecord) (domain : Str) :
    List RpcCall × Except PErr Str :=
  ([.createRecord (createReq record domain)],
   (remote.createR (createReq record domain)).mapError .remote)

/-- `client.updateRecord`: fails locally, without any RPC, when the
record's id is unset; otherwise one `nameserver.updateRecord` call. -/
def updateRecordC (remote : Remote) (record : NameserverRecord) :
    List RpcCall × Except PErr Unit :=
  if record.id = [] then ([], .error .updateMissingId)
  else
    ([.updateRecord (updateReq record)],
     (remote.updateR (updateReq record)).mapError .remote)

/-- `client.deleteRecord`: one `nameserver.deleteRecord` call carrying
only the record's id. -/
def deleteRecordC (remote : Remote) (record : NameserverRecord) :
    List RpcCall × Except PErr Unit :=
  ([.deleteRecord { id := record.id }],
   (remote.deleteR { id := record.id }).mapError .remote)

/-- `client.login`: the `account.login` RPC; exactly when the response
carries the `GOOGLE-AUTH` second-factor indicator, a TAN is generated
from the shared secret and submitted via `account.unlock`. -/
def loginM (remote : Remote) (user pass secret : Str) :
    List RpcCall × Except PErr Unit :=
  match remote.loginR user pass with
  | .error e => ([.accountLogin user pass], .error (.remote e))
  | .ok data =>
    if data.tfa = ['G', 'O', 'O', 'G', 'L', 'E', '-', 'A', 'U', 'T', 'H'] then
      match remote.otpR secret with
      | .error msg => ([.accountLogin user pass], .error (.otpFailed msg))
      | .ok tan =>
        ([.accountLogin user pass, .accountUnlock tan],
         (remote.unlockR tan).mapError .remote)
    else ([.accountLogin user pass], .ok ())

/-- `Provider.getClient`: when no client is stored, a fresh client is
stored (before the login attempt, exactly as in the source) and logged
in; an existing client is reused without any RPC. -/
def getClientP (remote : Remote) (user pass secret : Str) (st : Bool) :
    Bool × List RpcCall × Except PErr Unit :=
  if st then (st, [], .ok ())
  else
    let (tr, res) := loginM remote user pass secret
    (true, tr, res)

/-- `Provider.removeClient`: when a client is stored, `account.logout`
is invoked with its outcome discarded, and the stored client is cleared
unconditionally. -/
def removeClientP (st : Bool) : Bool × List RpcCall :=
  if st then (false, [.accountLogout]) else (false, [])

/-- The shared shape of the four public operations: acquire the client,
run the body only when acquisition succeeded, and release the client on
every exit path (the deferred `removeClient`). -/
def runP {α : Type} (remote : Remote) (user pass secret : Str) (st : Bool)
    (body : List RpcCall × Except PErr α) :
    Bool × List RpcCall × Except PErr α :=
  let (st1, tr1, res1) := getClientP remote user pass secret st
  match res1 with
  | .error e =>
    let (st2, tr2) := removeClientP st1
    (st2, tr1 ++ tr2, .error e)
  | .ok _ =>
    let (trB, resB) := body
    let (st2, tr2) := removeClientP st1
    (st2, tr1 ++ (trB ++ tr2), resB)

/-- The decode loop of `GetRecords`: every fetched native record is
decoded; the first decode failure aborts with an error naming that
record. -/
def decodeAll (zone : Str) : List NameserverRecord → Except PErr (List GenericRecord)
  | [] => .ok []
  | nr :: rest =>
    match libdnsRecord nr zone with
    | .error msg => .error (.recordParse nr msg)
    | .ok g => (decodeAll zone rest).map (g :: ·)

/-- The body of `GetRecords`: fetch all records of the zone, then
decode each. -/
def getRecordsBody (remote : Remote) (zone : Str) :
    List RpcCall × Except PErr (List GenericRecord) :=
  let (tr, res) := getRecordsC remote (getDomain zone)
  match res with
  | .error e => (tr, .error e)
  | .ok rs => (tr, decodeAll zone rs)

/-- The per-record loop of `AppendRecords`: one create per input
record, in input order, aborting on the first error. -/
def appendLoop (remote : Remote) (dom : Str) :
    List GenericRecord → List RpcCall × Except PErr (List GenericRecord)
  | [] => ([], .ok [])
  | record :: rest =>
    let (trC, resC) := createRecordC remote (inwxRecord record) dom
    match resC with
    | .error e => (trC, .error e)
    | .ok _ =>
      let (trR, resR) := appendLoop remote dom rest
      (trC ++ trR, resR.map (record :: ·))

/-- The per-record loop of `SetRecords`: look up by (type, name)
without content filter; zero matches create, exactly one match updates
that match's id in place, several matches abort with an error naming
the record. -/
def setLoop (remote : Remote) (dom : Str) :
    List GenericRecord → List RpcCall × Except PErr (List GenericRecord)
  | [] => ([], .ok [])
  | record :: rest =>
    let nr := inwxRecord record
    let (trF, resF) := findRecordsC remote nr dom false
    match resF with
    | .error e => (trF, .error e)
    | .ok [] =>
      let (trC, resC) := createRecordC remote nr dom
      match resC with
      | .error e => (trF ++ trC, .error e)
      | .ok _ =>
        let (trR, resR) := setLoop remote dom rest
        (trF ++ (trC ++ trR), resR.map (record :: ·))
    | .ok [m] =>
      let (trU, resU) := updateRecordC remote { nr with id := m.id }
      match resU with
      | .error e => (trF ++ trU, .error e)
      | .ok _ =>
        let (trR, resR) := setLoop remote dom rest
        (trF ++ (trU ++ trR), resR.map (record :: ·))
    | .ok (_ :: _ :: _) => (trF, .error (.ambiguous record))

/-- The inner loop of `DeleteRecords`: delete every exact match,
echoing the input record once per deleted match. -/
def deleteMatches (remote : Remote) (record : GenericRecord) :
    List NameserverRecord → List RpcCall × Except PErr (List GenericRecord)
  | [] => ([], .ok [])
  | m :: ms =>
    let (trD, resD) := deleteRecordC remote m
    match resD with
    | .error e => (trD, .error e)
    | .ok _ =>
      let (trR, resR) := deleteMatches remote record ms
      (trD ++ trR, resR.map (record :: ·))

/-- The per-record loop of `DeleteRecords`: look up by
(type, name, content) — exact content match — then delete all matches. -/
def deleteLoop (remote : Remote) (dom : Str) :
    List GenericRecord → List RpcCall × Except PErr (List GenericRecord)
  | [] => ([], .ok [])
  | record :: rest =>
    let nr := inwxRecord record
    let (trF, resF) := findRecordsC remote nr dom true
    match resF with
    | .error e => (trF, .error e)
    | .ok ms =>
      let (trD, resD) := deleteMatches remote record ms
      match resD with
      | .error e => (trF ++ trD, .error e)
      | .ok dels =>
        let (trR, resR) := deleteLoop remote dom rest
        (trF ++ (trD ++ trR), resR.map (dels ++ ·))

/-- `Provider.GetRecords`. -/
def GetRecordsP (remote : Remote) (user pass secret : Str) (st : Bool)
    (zone : Str) : Bool × List RpcCall × Except PErr (List GenericRecord) :=
  runP remote user pass secret st (getRecordsBody remote zone)

/-- `Provider.AppendRecords`. -/
def AppendRecordsP (remote : Remote) (user pass secret : Str) (st : Bool)
    (zone : Str) (records : List GenericRecord) :
    Bool × List RpcCall × Except PErr (List GenericRecord) :=
  runP remote user pass secret st (appendLoop remote (getDomain zone) records)

/-- `Provider.SetRecords`. -/
def SetRecordsP (remote : Remote) (user pass secret : Str) (st : Bool)
    (zone : Str) (records : List GenericRecord) :
    Bool × List RpcCall × Except PErr (List GenericRecord) :=
  runP remote user pass secret st (setLoop remote (getDomain zone) records)

/-- `Provider.DeleteRecords`. -/
def DeleteRecordsP (remote : Remote) (user pass secret : Str) (st : Bool)
    (zone : Str) (records : List GenericRecord) :
    Bool × List RpcCall × Except PErr (List GenericRecord) :=
  runP remote user pass secret st (deleteLoop remote (getDomain zone) records)

@[simp]
theorem except_map_ok {ε α β : Type} (f : α → β) (a : α) :
    (Except.ok a : Except ε α).map f = .ok (f a) := rfl

@[simp]
theorem except_map_error {ε α β : Type} (f : α → β) (e : ε) :
    (Except.error e : Except ε α).map f = .error e := rfl

@[simp]
theorem except_mapError_ok {ε ε' α : Type} (f : ε → ε') (a : α) :
    (Except.ok a : Except ε α).mapError f = .ok a := rfl

@[simp]
theorem except_mapError_error {ε ε' α : Type} (f : ε → ε') (e : ε) :
    (Except.error e : Except ε α).mapError f = .error (f e) := rfl

/-- With a live session (`st = true`), a public operation issues the
body's calls followed by the logout of the deferred `removeClient`, and
clears the stored client. -/
theorem runP_true {α : Type} (remote : Remote) (user pass secret : Str)
    (body : List RpcCall × Except PErr α) :
    runP remote user pass secret true body =
      (false, body.1 ++ [.accountLogout], body.2) := by
  rcases body with ⟨trB, resB⟩
  simp [runP, getClientP, removeClientP]

/-- C5: an RPC response counts as success exactly when its status code
lies in the inclusive band 1000..1500; any other code yields an error
carrying the response's code, message, reason code and reason
unchanged. -/
theorem claim_C5_status_band (r : Response) :
    (checkResponse r = none ↔ 1000 ≤ r.code ∧ r.code ≤ 1500) ∧
    (¬ (1000 ≤ r.code ∧ r.code ≤ 1500) →
      checkResponse r = some { code := r.code, message := r.message,
                               reasonCode := r.reasonCode, reason := r.reason }) := by
  refine ⟨⟨fun h => ?_, fun h => ?_⟩, fun h => ?_⟩
  · by_contra hc
    simp [checkResponse, hc] at h
  · simp [checkResponse, h]
  · simp [checkResponse, h]

/-- Witness for C5: code 2303 (outside the band) is classified as an
error with all fields carried over; its hypothesis `¬ band` holds. -/
theorem claim_C5_witness :
    checkResponse { code := 2303, message := ['M'], reasonCode := ['R'], reason := ['X'] } =
      some { code := 2303, message := ['M'], reasonCode := ['R'], reason := ['X'] } :=
  (claim_C5_status_band _).2 (by norm_num)

/-- C4: every write request (create and update) carries
`ensureMinTTL` of the requested TTL: below 300 it is raised to exactly
300, at or above 300 it is sent unchanged. -/
theorem claim_C4_ttl_floor (remote : Remote) (r : NameserverRecord) (dom : Str) :
    ((createRecordC remote r dom).1 = [.createRecord (createReq r dom)]) ∧
    (r.id ≠ [] → (updateRecordC remote r).1 = [.updateRecord (updateReq r)]) ∧
    (r.ttl < 300 → (createReq r dom).ttl = 300 ∧ (updateReq r).ttl = 300) ∧
    (300 ≤ r.ttl → (createReq r dom).ttl = r.ttl ∧ (updateReq r).ttl = r.ttl) := by
  refine ⟨rfl, fun h => by simp [updateRecordC, h], fun h => ?_, fun h => ?_⟩
  · simp [createReq, updateReq, ensureMinTTL, h]
  · have h' : ¬ r.ttl < 300 := not_lt.mpr h
    simp [createReq, updateReq, ensureMinTTL, h']

/-- A fixed benign oracle used by witnesses. -/
def remote0 : Remote where
  infoR := fun _ => .ok []
  createR := fun _ => .ok ['1']
  updateR := fun _ => .ok ()
  deleteR := fun _ => .ok ()
  loginR := fun _ _ => .ok { tfa := [] }
  unlockR := fun _ => .ok ()
  logoutR := .ok ()
  otpR := fun _ => .ok ['1']

/-- Witness for C4: a requested TTL of 60 seconds goes out as exactly
300 on both write requests. -/
theorem claim_C4_witness :
    (createReq { id := [], name := ['a'], typ := ['T', 'X', 'T'],
                 content := ['v'], ttl := 60, prio := 0 } ['z']).ttl = 300 ∧
    (updateReq { id := [], name := ['a'], typ := ['T', 'X', 'T'],
                 content := ['v'], ttl := 60, prio := 0 }).ttl = 300 :=
  (claim_C4_ttl_floor remote0 _ ['z']).2.2.1 (by norm_num)

/-- C10: `updateRecord` on a record with an empty id fails locally
without issuing any RPC; with a non-empty id it issues exactly the
update RPC. -/
theorem claim_C10_update_requires_id (remote : Remote) (r : NameserverRecord) :
    (r.id = [] → updateRecordC remote r = ([], .error .updateMissingId)) ∧
    (r.id ≠ [] → updateRecordC remote r =
      ([.updateRecord (updateReq r)], (remote.updateR (updateReq r)).mapError .remote)) := by
  constructor <;> intro h <;> simp [updateRecordC, h]

/-- Witness for C10: an id-less record is rejected with an empty call
trace. -/
theorem claim_C10_witness :
    updateRecordC remote0 { id := [], name := ['a'], typ := ['A'],
                            content := ['v'], ttl := 300, prio := 0 } =
      ([], .error .updateMissingId) :=
  (claim_C10_update_requires_id remote0 _).1 rfl

/-- C7: session open performs the login RPC; exactly when the response
carries the second-factor indicator, a one-time code is generated from
the shared secret and submitted through the unlock RPC before success;
rejected credentials and OTP-generation failures are errors (and in
those cases no unlock is ever attempted). -/
theorem claim_C7_login_unlock (remote : Remote) (user pass secret : Str) :
    (∀ e, remote.loginR user pass = .error e →
      getClientP remote user pass secret false =
        (true, [.accountLogin user pass], .error (.remote e))) ∧
    (∀ d, remote.loginR user pass = .ok d →
      d.tfa ≠ ['G', 'O', 'O', 'G', 'L', 'E', '-', 'A', 'U', 'T', 'H'] →
      getClientP remote user pass secret false =
        (true, [.accountLogin user pass], .ok ())) ∧
    (∀ d msg, remote.loginR user pass = .ok d →
      d.tfa = ['G', 'O', 'O', 'G', 'L', 'E', '-', 'A', 'U', 'T', 'H'] →
      remote.otpR secret = .error msg →
      getClientP remote user pass secret false =
        (true, [.accountLogin user pass], .error (.otpFailed msg))) ∧
    (∀ d tan, remote.loginR user pass = .ok d →
      d.tfa = ['G', 'O', 'O', 'G', 'L', 'E', '-', 'A', 'U', 'T', 'H'] →
      remote.otpR secret = .ok tan →
      getClientP remote user pass secret false =
        (true, [.accountLogin user pass, .accountUnlock tan],
         (remote.unlockR tan).mapError .remote)) := by
  refine ⟨fun e h => ?_, fun d h hn => ?_, fun d msg h ht ho => ?_, fun d tan h ht ho => ?_⟩
  · simp [getClientP, loginM, h]
  · simp [getClientP, loginM, h, hn]
  · simp [getClientP, loginM, h, ht, ho]
  · simp [getClientP, loginM, h, ht, ho]

/-- Witness for C7: a challenge-free login succeeds with a single login
call and no unlock. -/
theorem claim_C7_witness :
    getClientP remote0 ['u'] ['p'] ['s'] false =
      (true, [.accountLogin ['u'] ['p']], .ok ()) :=
  (claim_C7_login_unlock remote0 ['u'] ['p'] ['s']).2.1 { tfa := [] } rfl (by decide)

/-- When every create succeeds, the append loop issues exactly one
create per record, in order, and echoes the input. -/
theorem appendLoop_ok (remote : Remote) (dom : Str) :
    ∀ l : List GenericRecord,
      (∀ r ∈ l, ∃ i, remote.createR (createReq (inwxRecord r) dom) = .ok i) →
      appendLoop remote dom l =
        (l.map fun r => .createRecord (createReq (inwxRecord r) dom), .ok l) := by
  intro l
  induction l with
  | nil => intro _; rfl
  | cons r rest ih =>
    intro h
    obtain ⟨i, hi⟩ := h r (List.mem_cons_self r rest)
    have hrest := ih fun x hx => h x (List.mem_cons_of_mem _ hx)
    simp [appendLoop, createRecordC, hi, hrest]

/-- A failing create aborts the append loop: the trace stops at the
failing call and the error is surfaced with no result list. -/
theorem appendLoop_abort (remote : Remote) (dom : Str)
    (r : GenericRecord) (post : List GenericRecord) (e : ErrorResponse) :
    ∀ pre : List GenericRecord,
      (∀ x ∈ pre, ∃ i, remote.createR (createReq (inwxRecord x) dom) = .ok i) →
      remote.createR (createReq (inwxRecord r) dom) = .error e →
      appendLoop remote dom (pre ++ r :: post) =
        ((pre.map fun x => .createRecord (createReq (inwxRecord x) dom)) ++
          [.createRecord (createReq (inwxRecord r) dom)],
         .error (.remote e)) := by
  intro pre
  induction pre with
  | nil =>
    intro _ he
    simp [appendLoop, createRecordC, he]
  | cons x t ih =>
    intro h he
    obtain ⟨i, hi⟩ := h x (List.mem_cons_self x t)
    have ht := ih (fun y hy => h y (List.mem_cons_of_mem _ hy)) he
    simp [appendLoop, createRecordC, hi, ht]

/-- C8: `AppendRecords` performs exactly one create call per input
record, in input order, without ever searching for an existing match;
on success the result echoes the input records in order, and an error
on any record aborts the remaining batch with no result list. -/
theorem claim_C8_append_always_creates (remote : Remote)
    (user pass secret zone : Str) (records : List GenericRecord) :
    ((∀ r ∈ records, ∃ i, remote.createR (createReq (inwxRecord r) (getDomain zone)) = .ok i) →
      AppendRecordsP remote user pass secret true zone records =
        (false,
         (records.map fun r => .createRecord (createReq (inwxRecord r) (getDomain zone))) ++
           [.accountLogout],
         .ok records)) ∧
    (∀ pre r post e, records = pre ++ r :: post →
      (∀ x ∈ pre, ∃ i, remote.createR (createReq (inwxRecord x) (getDomain zone)) = .ok i) →
      remote.createR (createReq (inwxRecord r) (getDomain zone)) = .error e →
      AppendRecordsP remote user pass secret true zone records =
        (false,
         (pre.map fun x => .createRecord (createReq (inwxRecord x) (getDomain zone))) ++
           ([.createRecord (createReq (inwxRecord r) (getDomain zone))] ++ [.accountLogout]),
         .error (.remote e))) := by
  constructor
  · intro h
    unfold AppendRecordsP
    rw [runP_true, appendLoop_ok remote (getDomain zone) records h]
  · intro pre r post e hrec hpre he
    subst hrec
    unfold AppendRecordsP
    rw [runP_true, appendLoop_abort remote (getDomain zone) r post e pre hpre he]
    simp

/-- Witness for C8: a two-record batch against an always-succeeding
oracle yields two creates in order and echoes the input. -/
theorem claim_C8_witness :
    AppendRecordsP remote0 ['u'] ['p'] ['s'] true ['z', '.']
      [.txt ['a'] 300000000000 ['v'], .txt ['b'] 300000000000 ['w']] =
      (false,
       [.createRecord (createReq (inwxRecord (.txt ['a'] 300000000000 ['v'])) ['z']),
        .createRecord (createReq (inwxRecord (.txt ['b'] 300000000000 ['w'])) ['z']),
        .accountLogout],
       .ok [.txt ['a'] 300000000000 ['v'], .txt ['b'] 300000000000 ['w']]) := by
  rw [(claim_C8_append_always_creates remote0 ['u'] ['p'] ['s'] ['z', '.'] _).1
    (fun r _ => ⟨['1'], rfl⟩)]
  rfl

/-- When every delete succeeds, the match loop deletes exactly the
matched records (by id, in order) and contributes one copy of the input
record per match. -/
theorem deleteMatches_ok (remote : Remote) (record : GenericRecord) :
    ∀ ms : List NameserverRecord,
      (∀ m ∈ ms, remote.deleteR { id := m.id } = .ok ()) →
      deleteMatches remote record ms =
        (ms.map fun m => .deleteRecord { id := m.id },
         .ok (List.replicate ms.length record)) := by
  intro ms
  induction ms with
  | nil => intro _; rfl
  | cons m t ih =>
    intro h
    have hm := h m (List.mem_cons_self m t)
    have ht := ih fun x hx => h x (List.mem_cons_of_mem _ hx)
    simp [deleteMatches, deleteRecordC, hm, ht, List.replicate_succ]

/-- C2: for the record at the head of a `DeleteRecords` batch, the
records deleted are exactly the remote records matching
(type, name, content): zero matches contribute no delete call and no
error, one match is deleted, several exact matches are all deleted —
so the result may contain more entries than the input. -/
theorem claim_C2_delete_exact_matches (remote : Remote)
    (user pass secret zone : Str) (r : GenericRecord)
    (rest : List GenericRecord) (ms : List NameserverRecord)
    (hfind : remote.infoR (findReq (inwxRecord r) (getDomain zone) true) = .ok ms)
    (hdel : ∀ m ∈ ms, remote.deleteR { id := m.id } = .ok ()) :
    DeleteRecordsP remote user pass secret true zone (r :: rest) =
      (false,
       .info (findReq (inwxRecord r) (getDomain zone) true) ::
         ((ms.map fun m => .deleteRecord { id := m.id }) ++
           ((deleteLoop remote (getDomain zone) rest).1 ++ [.accountLogout])),
       ((deleteLoop remote (getDomain zone) rest).2).map
         (List.replicate ms.length r ++ ·)) := by
  unfold DeleteRecordsP
  rw [runP_true]
  simp [deleteLoop, findRecordsC, hfind, deleteMatches_ok remote r ms hdel]

/-- An oracle holding two identical TXT records, both matched by the
content-exact lookup. -/
def remoteTwoDup : Remote :=
  { remote0 with
    infoR := fun _ => .ok
      [{ id := ['1'], name := ['a'], typ := ['T', 'X', 'T'],
         content := ['v'], ttl := 300, prio := 0 },
       { id := ['2'], name := ['a'], typ := ['T', 'X', 'T'],
         content := ['v'], ttl := 300, prio := 0 }] }

/-- Witness for C2: with two exact duplicates remotely, a one-record
batch deletes both ids and returns two result entries. -/
theorem claim_C2_witness :
    DeleteRecordsP remoteTwoDup ['u'] ['p'] ['s'] true ['z', '.']
      [.txt ['a'] 300000000000 ['v']] =
      (false,
       [.info (findReq (inwxRecord (.txt ['a'] 300000000000 ['v'])) ['z'] true),
        .deleteRecord { id := ['1'] }, .deleteRecord { id := ['2'] },
        .accountLogout],
       .ok [.txt ['a'] 300000000000 ['v'], .txt ['a'] 300000000000 ['v']]) := by
  rw [claim_C2_delete_exact_matches remoteTwoDup ['u'] ['p'] ['s'] ['z', '.']
    (.txt ['a'] 300000000000 ['v']) [] _ rfl (fun m _ => rfl)]
  rfl

/-- C1: for the record at the head of a `SetRecords` batch, the
(type, name) lookup without content filter decides the action: zero
matches create the record; exactly one match (with its id assigned, as
remote records always are) updates that id in place with the input's
content/TTL/priority; more than one match fails with an error naming
the record, with no create and no update issued for it. -/
theorem claim_C1_set_policy (remote : Remote) (user pass secret zone : Str)
    (r : GenericRecord) (rest : List GenericRecord) :
    (remote.infoR (findReq (inwxRecord r) (getDomain zone) false) = .ok [] →
      (∀ e, remote.createR (createReq (inwxRecord r) (getDomain zone)) = .error e →
        SetRecordsP remote user pass secret true zone (r :: rest) =
          (false,
           [.info (findReq (inwxRecord r) (getDomain zone) false),
            .createRecord (createReq (inwxRecord r) (getDomain zone)),
            .accountLogout],
           .error (.remote e))) ∧
      (∀ i, remote.createR (createReq (inwxRecord r) (getDomain zone)) = .ok i →
        SetRecordsP remote user pass secret true zone (r :: rest) =
          (false,
           .info (findReq (inwxRecord r) (getDomain zone) false) ::
             (.createRecord (createReq (inwxRecord r) (getDomain zone)) ::
               ((setLoop remote (getDomain zone) rest).1 ++ [.accountLogout])),
           ((setLoop remote (getDomain zone) rest).2).map (r :: ·)))) ∧
    (∀ m, remote.infoR (findReq (inwxRecord r) (getDomain zone) false) = .ok [m] →
      m.id ≠ [] →
      (∀ e, remote.updateR (updateReq { inwxRecord r with id := m.id }) = .error e →
        SetRecordsP remote user pass secret true zone (r :: rest) =
          (false,
           [.info (findReq (inwxRecord r) (getDomain zone) false),
            .updateRecord (updateReq { inwxRecord r with id := m.id }),
            .accountLogout],
           .error (.remote e))) ∧
      (remote.updateR (updateReq { inwxRecord r with id := m.id }) = .ok () →
        SetRecordsP remote user pass secret true zone (r :: rest) =
          (false,
           .info (findReq (inwxRecord r) (getDomain zone) false) ::
             (.updateRecord (updateReq { inwxRecord r with id := m.id }) ::
               ((setLoop remote (getDomain zone) rest).1 ++ [.accountLogout])),
           ((setLoop remote (getDomain zone) rest).2).map (r :: ·)))) ∧
    (∀ m1 m2 ms, remote.infoR (findReq (inwxRecord r) (getDomain zone) false)
        = .ok (m1 :: m2 :: ms) →
      SetRecordsP remote user pass secret true zone (r :: rest) =
        (false,
         [.info (findReq (inwxRecord r) (getDomain zone) false), .accountLogout],
         .error (.ambiguous r))) := by
  refine ⟨fun hf => ⟨fun e he => ?_, fun i hi => ?_⟩,
          fun m hf hid => ⟨fun e he => ?_, fun hu => ?_⟩,
          fun m1 m2 ms hf => ?_⟩ <;>
    · unfold SetRecordsP
      rw [runP_true]
      simp [setLoop, findRecordsC, createRecordC, updateRecordC, hf, *]

/-- An oracle returning two same-(type,name) records for every lookup. -/
def remoteTwoSameName : Remote :=
  { remote0 with
    infoR := fun _ => .ok
      [{ id := ['1'], name := ['a'], typ := ['T', 'X', 'T'],
         content := ['v'], ttl := 300, prio := 0 },
       { id := ['2'], name := ['a'], typ := ['T', 'X', 'T'],
         content := ['w'], ttl := 300, prio := 0 }] }

/-- Witness for C1: with two records at the same (type, name), a
one-record `SetRecords` batch fails naming the record, after the single
lookup call and with no create or update issued. -/
theorem claim_C1_witness :
    SetRecordsP remoteTwoSameName ['u'] ['p'] ['s'] true ['z', '.']
      [.txt ['a'] 300000000000 ['v']] =
      (false,
       [.info (findReq (inwxRecord (.txt ['a'] 300000000000 ['v'])) ['z'] false),
        .accountLogout],
       .error (.ambiguous (.txt ['a'] 300000000000 ['v']))) :=
  (claim_C1_set_policy remoteTwoSameName ['u'] ['p'] ['s'] ['z', '.']
    (.txt ['a'] 300000000000 ['v']) []).2.2 _ _ [] rfl

/-- The decode loop aborts at the first record whose native content
fails to parse, surfacing that record and its error. -/
theorem decodeAll_abort (zone : Str) (bad : NameserverRecord)
    (post : List NameserverRecord) (msg : Str) :
    ∀ pre : List NameserverRecord,
      (∀ nr ∈ pre, ∃ g, libdnsRecord nr zone = .ok g) →
      libdnsRecord bad zone = .error msg →
      decodeAll zone (pre ++ bad :: post) = .error (.recordParse bad msg) := by
  intro pre
  induction pre with
  | nil =>
    intro _ hbad
    simp [decodeAll, hbad]
  | cons a t ih =>
    intro h hbad
    obtain ⟨g, hg⟩ := h a (List.mem_cons_self a t)
    have ht := ih (fun x hx => h x (List.mem_cons_of_mem _ hx)) hbad
    simp [decodeAll, hg, ht]

/-- When every record decodes, the decode loop returns them all, in
order, related one-to-one to their native sources. -/
theorem decodeAll_ok (zone : Str) :
    ∀ rs : List NameserverRecord,
      (∀ nr ∈ rs, ∃ g, libdnsRecord nr zone = .ok g) →
      ∃ gs, decodeAll zone rs = .ok gs ∧
        List.Forall₂ (fun nr g => libdnsRecord nr zone = .ok g) rs gs := by
  intro rs
  induction rs with
  | nil => intro _; exact ⟨[], rfl, List.Forall₂.nil⟩
  | cons a t ih =>
    intro h
    obtain ⟨g, hg⟩ := h a (List.mem_cons_self a t)
    obtain ⟨gs, hgs, hrel⟩ := ih fun x hx => h x (List.mem_cons_of_mem _ hx)
    exact ⟨g :: gs, by simp [decodeAll, hg, hgs], List.Forall₂.cons hg hrel⟩

/-- C6: `GetRecords` decodes every fetched native record; a single
decode failure makes the whole call return that record's error with no
record list, and when all decode the result lists them all. -/
theorem claim_C6_list_decode (remote : Remote) (user pass secret zone : Str)
    (rs : List NameserverRecord)
    (hinfo : remote.infoR (infoDomainReq (getDomain zone)) = .ok rs) :
    (GetRecordsP remote user pass secret true zone =
      (false, [.info (infoDomainReq (getDomain zone)), .accountLogout],
       decodeAll zone rs)) ∧
    (∀ pre bad post msg, rs = pre ++ bad :: post →
      (∀ nr ∈ pre, ∃ g, libdnsRecord nr zone = .ok g) →
      libdnsRecord bad zone = .error msg →
      decodeAll zone rs = .error (.recordParse bad msg)) ∧
    ((∀ nr ∈ rs, ∃ g, libdnsRecord nr zone = .ok g) →
      ∃ gs, decodeAll zone rs = .ok gs ∧
        List.Forall₂ (fun nr g => libdnsRecord nr zone = .ok g) rs gs) := by
  refine ⟨?_, fun pre bad post msg hsplit hpre hbad => ?_, decodeAll_ok zone rs⟩
  · unfold GetRecordsP
    rw [runP_true]
    simp [getRecordsBody, getRecordsC, hinfo]
  · subst hsplit
    exact decodeAll_abort zone bad post msg pre hpre hbad

/-- An oracle whose zone holds one well-formed TXT record and one SRV
record with malformed native content (no weight/port/target fields). -/
def remoteBadSRV : Remote :=
  { remote0 with
    infoR := fun _ => .ok
      [{ id := ['1'], name := ['a'], typ := ['T', 'X', 'T'],
         content := ['v'], ttl := 300, prio := 0 },
       { id := ['2'], name := ['b'], typ := ['S', 'R', 'V'],
         content := [], ttl := 300, prio := 0 }] }

/-- Witness for C6: a malformed SRV aborts the whole listing with that
record's parse error, even though the first record decodes. -/
theorem claim_C6_witness :
    GetRecordsP remoteBadSRV ['u'] ['p'] ['s'] true ['z', '.'] =
      (false, [.info (infoDomainReq ['z']), .accountLogout],
       .error (.recordParse
         { id := ['2'], name := ['b'], typ := ['S', 'R', 'V'],
           content := [], ttl := 300, prio := 0 }
         ['0', ' '])) := by
  have h := (claim_C6_list_decode remoteBadSRV ['u'] ['p'] ['s'] ['z', '.'] _ rfl)
  rw [h.1, h.2.1
    [{ id := ['1'], name := ['a'], typ := ['T', 'X', 'T'],
       content := ['v'], ttl := 300, prio := 0 }]
    { id := ['2'], name := ['b'], typ := ['S', 'R', 'V'],
      content := [], ttl := 300, prio := 0 }
    [] ['0', ' '] rfl
    (fun nr hnr => ⟨.txt ['a'] 300000000000 ['v'], by
      simp at hnr
      subst hnr
      rfl⟩)
    rfl]
  rfl

/-- Whatever the session state and the body's outcome, a public
operation ends with the stored client cleared. -/
theorem runP_fst {α : Type} (remote : Remote) (user pass secret : Str)
    (st : Bool) (body : List RpcCall × Except PErr α) :
    (runP remote user pass secret st body).1 = false := by
  rcases body with ⟨trB, resB⟩
  cases st
  · rcases hl : loginM remote user pass secret with ⟨tr, res⟩
    cases res <;> cases resB <;> simp [runP, getClientP, removeClientP, hl]
  · cases resB <;> simp [runP, getClientP, removeClientP]

/-- The append loop never consults the logout endpoint. -/
theorem appendLoop_logout (remote : Remote) (e : Except ErrorResponse Unit)
    (dom : Str) : ∀ l, appendLoop { remote with logoutR := e } dom l
      = appendLoop remote dom l := by
  intro l
  induction l with
  | nil => rfl
  | cons r t ih => simp only [appendLoop, createRecordC, ih]

/-- The set loop never consults the logout endpoint. -/
theorem setLoop_logout (remote : Remote) (e : Except ErrorResponse Unit)
    (dom : Str) : ∀ l, setLoop { remote with logoutR := e } dom l
      = setLoop remote dom l := by
  intro l
  induction l with
  | nil => rfl
  | cons r t ih => simp only [setLoop, findRecordsC, createRecordC, updateRecordC, ih]

/-- The delete match loop never consults the logout endpoint. -/
theorem deleteMatches_logout (remote : Remote) (e : Except ErrorResponse Unit)
    (record : GenericRecord) : ∀ ms, deleteMatches { remote with logoutR := e } record ms
      = deleteMatches remote record ms := by
  intro ms
  induction ms with
  | nil => rfl
  | cons m t ih => simp only [deleteMatches, deleteRecordC, ih]

/-- The delete loop never consults the logout endpoint. -/
theorem deleteLoop_logout (remote : Remote) (e : Except ErrorResponse Unit)
    (dom : Str) : ∀ l, deleteLoop { remote with logoutR := e } dom l
      = deleteLoop remote dom l := by
  intro l
  induction l with
  | nil => rfl
  | cons r t ih =>
    simp only [deleteLoop, findRecordsC, deleteMatches_logout, ih]

/-- C9: every public operation releases the session on every exit path
— the stored client is cleared whatever the initial state and outcome —
and the teardown logout's outcome never changes any operation's result
(a logout failure is swallowed and cannot mask the primary error). -/
theorem claim_C9_session_scoped (remote : Remote) (user pass secret zone : Str)
    (records : List GenericRecord) (st : Bool) (e : Except ErrorResponse Unit) :
    ((GetRecordsP remote user pass secret st zone).1 = false) ∧
    ((AppendRecordsP remote user pass secret st zone records).1 = false) ∧
    ((SetRecordsP remote user pass secret st zone records).1 = false) ∧
    ((DeleteRecordsP remote user pass secret st zone records).1 = false) ∧
    (GetRecordsP { remote with logoutR := e } user pass secret st zone =
      GetRecordsP remote user pass secret st zone) ∧
    (AppendRecordsP { remote with logoutR := e } user pass secret st zone records =
      AppendRecordsP remote user pass secret st zone records) ∧
    (SetRecordsP { remote with logoutR := e } user pass secret st zone records =
      SetRecordsP remote user pass secret st zone records) ∧
    (DeleteRecordsP { remote with logoutR := e } user pass secret st zone records =
      DeleteRecordsP remote user pass secret st zone records) := by
  refine ⟨runP_fst _ _ _ _ _ _, runP_fst _ _ _ _ _ _, runP_fst _ _ _ _ _ _,
          runP_fst _ _ _ _ _ _, rfl, ?_, ?_, ?_⟩
  · unfold AppendRecordsP
    rw [appendLoop_logout]
    rfl
  · unfold SetRecordsP
    rw [setLoop_logout]
    rfl
  · unfold DeleteRecordsP
    rw [deleteLoop_logout]
    rfl

end Inwx
